import Mathlib

/-!
Formal model of the sportstream-bolt client data layer.

This file embeds, as executable Lean definitions, the pieces of the
TypeScript client that the verified properties talk about:

* `OptimizedCache` (src/src/hooks/useOptimizedCache.tsx): a bounded
  TTL cache backed by a JS `Map`.  The `Map` is modelled as an
  association list in insertion order (JS `Map` iteration order);
  `Map.set` on an existing key overwrites in place, otherwise appends.
* the advanced sync engine (src/src/hooks/useAdvancedSync.tsx):
  optimistic updates, the periodic retry queue, and conflict
  resolution.
* the realtime connection manager
  (src/src/hooks/useRealtimeConnection.tsx) and the
  connection-restore effect of useRealtimeEventUpdates.tsx.
* the presence handlers (src/src/hooks/useRealtimePresence.tsx).

Numbers that are JS `number` timestamps and counters are modelled as
`Nat`/`Int`.  The eviction score `(Date.now() - timestamp) / (hits + 1)`
is a real-number quantity; its comparisons are embedded exactly by
cross-multiplying with the (strictly positive) denominators, so
`a1/d1 < a2/d2` becomes `a1 * d2 < a2 * d1`.  JS truthiness is modelled
where the source relies on it (`ttl || defaultTTL`, `x || y || 0`,
`if (oldestKey)`).
-/

/-! ## JS values and records

Record values that flow through the sync engine are association lists
of field name to primitive value (the fields the code reads are
numbers, strings and booleans). -/

inductive JsVal where
  | num (n : Int)
  | str (s : String)
  | bool (b : Bool)
deriving DecidableEq, Repr

/-- JS truthiness for the primitive values we model (`0`, the empty
string and `false` are falsy). -/
def JsVal.truthy : JsVal → Bool
  | .num n => n != 0
  | .str s => s != ""
  | .bool b => b

abbrev RecordData := List (String × JsVal)

/-- `chars1` starts with `pat`. -/
def charsStartWith : List Char → List Char → Bool
  | [], _ => true
  | _ :: _, [] => false
  | p :: ps, c :: cs => p == c && charsStartWith ps cs

/-- `text` contains `pat` as a contiguous run. -/
def charsContains (pat : List Char) : List Char → Bool
  | [] => charsStartWith pat []
  | c :: cs => charsStartWith pat (c :: cs) || charsContains pat cs

/-- JS `s.includes(pat)`. -/
def strIncludes (s pat : String) : Bool := charsContains pat.data s.data

/-- Lexicographic order on char lists (JS `<` on strings compares
code units left to right). -/
def charsLtB : List Char → List Char → Bool
  | [], [] => false
  | [], _ :: _ => true
  | _ :: _, [] => false
  | a :: as, b :: bs => a.val < b.val || (a == b && charsLtB as bs)

/-- JS `>` on two values of the same primitive type (the code only
compares timestamp-like values of matching type; the cross-type
numeric coercions of JS are not exercised by the code paths modelled
here). -/
def jsGt : JsVal → JsVal → Bool
  | .num a, .num b => decide (b < a)
  | .str a, .str b => charsLtB b.data a.data
  | _, _ => false

/-- `{...a, ...b}`: the keys of `a` in their order, with the value
overridden by `b` where `b` has the key, followed by the keys of `b`
not present in `a`. -/
def recMerge (a b : RecordData) : RecordData :=
  (a.map (fun p => (p.1, (List.lookup p.1 b).getD p.2))) ++
    b.filter (fun q => !(a.any (fun p => p.1 == q.1)))

/-- `opt || dflt` for an optional JS number (`undefined` and `0` are
falsy). -/
def jsOrNat (opt : Option Nat) (dflt : Nat) : Nat :=
  match opt with
  | some v => if v ≠ 0 then v else dflt
  | none => dflt

/-! ## The `OptimizedCache` of useOptimizedCache.tsx -/

structure CacheEntry (α : Type) where
  data : α
  timestamp : Nat
  expiresAt : Nat
  hits : Nat
deriving DecidableEq, Repr

/-- The private `Map` plus the constructor parameters
(`maxSize = 100`, `defaultTTL = 5 * 60 * 1000` by default). -/
structure OptimizedCache (α : Type) where
  entries : List (String × CacheEntry α)
  maxSize : Nat := 100
  defaultTTL : Nat := 5 * 60 * 1000
deriving DecidableEq, Repr

/-- JS `Map.set`: overwrite in place when the key exists, else append. -/
def mapSet {β : Type} (k : String) (v : β) : List (String × β) → List (String × β)
  | [] => [(k, v)]
  | p :: rest => if p.1 = k then (k, v) :: rest else p :: mapSet k v rest

/-- JS `Map.delete`. -/
def mapDelete {β : Type} (k : String) (l : List (String × β)) : List (String × β) :=
  l.filter (fun p => p.1 != k)

/-- The age `Date.now() - entry.timestamp` of an entry, as an integer. -/
def entryAge (now : Nat) (e : CacheEntry α) : Int :=
  (now : Int) - (e.timestamp : Int)

/-- Exact comparison `age1/(hits1+1) < age2/(hits2+1)` of the eviction
scores of two entries, by cross-multiplication with the positive
denominators. -/
def scoreLtB (now : Nat) (e1 e2 : CacheEntry α) : Bool :=
  decide (entryAge now e1 * ((e2.hits : Int) + 1) < entryAge now e2 * ((e1.hits : Int) + 1))

/-- Exact comparison `age1/(hits1+1) ≤ age2/(hits2+1)`. -/
def scoreLeB (now : Nat) (e1 e2 : CacheEntry α) : Bool :=
  decide (entryAge now e1 * ((e2.hits : Int) + 1) ≤ entryAge now e2 * ((e1.hits : Int) + 1))

/-- The loop of `evictOldest`: running best entry (the `none`
accumulator is the initial `oldestKey = null` / `oldestScore =
Infinity`, so the first entry always beats it; afterwards a strict
comparison). -/
def evictChoiceAux (now : Nat) (acc : Option (String × CacheEntry α)) :
    List (String × CacheEntry α) → Option (String × CacheEntry α)
  | [] => acc
  | kv :: rest =>
      evictChoiceAux now
        (match acc with
         | none => some kv
         | some best => if scoreLtB now kv.2 best.2 then some kv else some best)
        rest

/-- The key/entry `evictOldest` selects (lowest score, first wins ties). -/
def evictChoice (now : Nat) (l : List (String × CacheEntry α)) :
    Option (String × CacheEntry α) :=
  evictChoiceAux now none l

/-- `evictOldest`: delete the selected key — but only when `oldestKey`
is truthy, which the empty-string key is not (`if (oldestKey)`). -/
def OptimizedCache.evictOldest (c : OptimizedCache α) (now : Nat) : OptimizedCache α :=
  match evictChoice now c.entries with
  | some kv => if kv.1 ≠ "" then { c with entries := mapDelete kv.1 c.entries } else c
  | none => c

/-- `set(key, data, ttl?)` at time `now`. -/
def OptimizedCache.set (c : OptimizedCache α) (key : String) (data : α)
    (ttl : Option Nat) (now : Nat) : OptimizedCache α :=
  let c1 := if c.maxSize ≤ c.entries.length then c.evictOldest now else c
  let expiresAt := now + jsOrNat ttl c.defaultTTL
  { c1 with entries := mapSet key ⟨data, now, expiresAt, 0⟩ c1.entries }

/-- `get(key)` at time `now`: returns the value (or `null`) together
with the mutated cache (lazy eviction of an expired entry, hit count
bump on a live one). -/
def OptimizedCache.get (c : OptimizedCache α) (key : String) (now : Nat) :
    Option α × OptimizedCache α :=
  match List.lookup key c.entries with
  | none => (none, c)
  | some e =>
      if e.expiresAt < now then
        (none, { c with entries := mapDelete key c.entries })
      else
        (some e.data, { c with entries := mapSet key { e with hits := e.hits + 1 } c.entries })

/-- `has(key)` at time `now`: a pure read, it does not mutate the map. -/
def OptimizedCache.has (c : OptimizedCache α) (key : String) (now : Nat) : Bool :=
  match List.lookup key c.entries with
  | none => false
  | some e => now ≤ e.expiresAt

/-- `delete(key)`. -/
def OptimizedCache.delete (c : OptimizedCache α) (key : String) : OptimizedCache α :=
  { c with entries := mapDelete key c.entries }

/-- `size()`. -/
def OptimizedCache.size (c : OptimizedCache α) : Nat := c.entries.length

/-! ### Association-list and score lemmas -/

theorem lookup_mapSet_self {β : Type} (k : String) (v : β) (l : List (String × β)) :
    List.lookup k (mapSet k v l) = some v := by
  induction l with
  | nil => simp [mapSet, List.lookup]
  | cons p rest ih =>
      by_cases h : p.1 = k
      · simp [mapSet, h, List.lookup]
      · have hkp : (k == p.1) = false := beq_eq_false_iff_ne.mpr (Ne.symm h)
        simp [mapSet, h, List.lookup, hkp, ih]

theorem lookup_mapDelete_self {β : Type} (k : String) (l : List (String × β)) :
    List.lookup k (mapDelete k l) = none := by
  induction l with
  | nil => rfl
  | cons p rest ih =>
      by_cases h : p.1 = k
      · have hpk : (p.1 != k) = false := by simp [bne, h]
        simpa [mapDelete, List.filter_cons, hpk] using ih
      · have hpk : (p.1 != k) = true := by simp [bne, beq_eq_false_iff_ne.mpr h]
        have hkp : (k == p.1) = false := beq_eq_false_iff_ne.mpr (Ne.symm h)
        simp only [mapDelete] at ih
        simp [mapDelete, List.filter_cons, hpk, List.lookup, hkp, ih]

theorem scoreLeB_of_not_lt {now : Nat} {a b : CacheEntry α}
    (h : scoreLtB now a b = false) : scoreLeB now b a = true := by
  simp only [scoreLtB, decide_eq_false_iff_not, Int.not_lt] at h
  simpa [scoreLeB] using h

theorem scoreLeB_of_lt {now : Nat} {a b : CacheEntry α}
    (h : scoreLtB now a b = true) : scoreLeB now a b = true := by
  simp only [scoreLtB, decide_eq_true_eq] at h
  simp only [scoreLeB, decide_eq_true_eq]
  exact le_of_lt h

theorem scoreLeB_trans {now : Nat} {a b c : CacheEntry α}
    (h1 : scoreLeB now a b = true) (h2 : scoreLeB now b c = true) :
    scoreLeB now a c = true := by
  simp only [scoreLeB, decide_eq_true_eq] at h1 h2 ⊢
  have ha : (0 : Int) < (a.hits : Int) + 1 := by positivity
  have hb : (0 : Int) < (b.hits : Int) + 1 := by positivity
  have hc : (0 : Int) < (c.hits : Int) + 1 := by positivity
  nlinarith [mul_le_mul_of_nonneg_right h1 hc.le, mul_le_mul_of_nonneg_right h2 ha.le]

/-- The selection loop of `evictOldest` returns an element of the list
(or the incoming accumulator) whose score is a lower bound for the
scores of the whole list and of the accumulator. -/
theorem evictChoiceAux_spec {α : Type} (now : Nat) :
    ∀ (l : List (String × CacheEntry α)) (acc : Option (String × CacheEntry α))
      (kv : String × CacheEntry α),
      evictChoiceAux now acc l = some kv →
      (kv ∈ l ∨ acc = some kv) ∧
      (∀ p ∈ l, scoreLeB now kv.2 p.2 = true) ∧
      (∀ b, acc = some b → scoreLeB now kv.2 b.2 = true) := by
  intro l
  induction l with
  | nil =>
      intro acc kv h
      have hacc : acc = some kv := h
      refine ⟨Or.inr hacc, by simp, ?_⟩
      intro b hb
      rw [hacc] at hb
      cases hb
      simp only [scoreLeB, decide_eq_true_eq]
      exact le_refl _
  | cons q rest ih =>
      intro acc kv h
      cases acc with
      | none =>
          have h' : evictChoiceAux now (some q) rest = some kv := h
          obtain ⟨hmem, hlb, hacc⟩ := ih (some q) kv h'
          have hkq : scoreLeB now kv.2 q.2 = true := hacc q rfl
          refine ⟨?_, ?_, ?_⟩
          · rcases hmem with hm | hm
            · exact Or.inl (List.mem_cons_of_mem _ hm)
            · cases hm
              exact Or.inl (List.mem_cons_self q rest)
          · intro p hp
            rcases List.mem_cons.mp hp with rfl | hp
            · exact hkq
            · exact hlb p hp
          · intro b hb
            cases hb
      | some best =>
          by_cases hcmp : scoreLtB now q.2 best.2 = true
          · have h' : evictChoiceAux now (some q) rest = some kv := by
              simpa [evictChoiceAux, hcmp] using h
            obtain ⟨hmem, hlb, hacc⟩ := ih (some q) kv h'
            have hkq : scoreLeB now kv.2 q.2 = true := hacc q rfl
            refine ⟨?_, ?_, ?_⟩
            · rcases hmem with hm | hm
              · exact Or.inl (List.mem_cons_of_mem _ hm)
              · cases hm
                exact Or.inl (List.mem_cons_self q rest)
            · intro p hp
              rcases List.mem_cons.mp hp with rfl | hp
              · exact hkq
              · exact hlb p hp
            · intro b hb
              cases hb
              exact scoreLeB_trans hkq (scoreLeB_of_lt hcmp)
          · have hf : scoreLtB now q.2 best.2 = false := by simpa using hcmp
            have h' : evictChoiceAux now (some best) rest = some kv := by
              simpa [evictChoiceAux, hf] using h
            obtain ⟨hmem, hlb, hacc⟩ := ih (some best) kv h'
            have hkb : scoreLeB now kv.2 best.2 = true := hacc best rfl
            have hbq : scoreLeB now best.2 q.2 = true := scoreLeB_of_not_lt hf
            refine ⟨?_, ?_, ?_⟩
            · rcases hmem with hm | hm
              · exact Or.inl (List.mem_cons_of_mem _ hm)
              · exact Or.inr hm
            · intro p hp
              rcases List.mem_cons.mp hp with rfl | hp
              · exact scoreLeB_trans hkb hbq
              · exact hlb p hp
            · intro b hb
              cases hb
              exact hkb

theorem evictChoice_spec {α : Type} (now : Nat) (l : List (String × CacheEntry α))
    (kv : String × CacheEntry α) (h : evictChoice now l = some kv) :
    kv ∈ l ∧ (∀ p ∈ l, scoreLeB now kv.2 p.2 = true) := by
  obtain ⟨hmem, hlb, _⟩ := evictChoiceAux_spec now l none kv h
  refine ⟨?_, hlb⟩
  rcases hmem with hm | hm
  · exact hm
  · cases hm

theorem scoreLt_le_asymm {now : Nat} {a b : CacheEntry α}
    (h1 : scoreLtB now a b = true) (h2 : scoreLeB now b a = true) : False := by
  simp only [scoreLtB, decide_eq_true_eq] at h1
  simp only [scoreLeB, decide_eq_true_eq] at h2
  exact (not_le.mpr h1) h2

theorem keys_nodup_eq {β : Type} {l : List (String × β)} (h : (l.map Prod.fst).Nodup)
    {p r : String × β} (hp : p ∈ l) (hr : r ∈ l) (hk : p.1 = r.1) : p = r := by
  induction l with
  | nil => cases hp
  | cons a t ih =>
      simp only [List.map_cons, List.nodup_cons] at h
      rcases List.mem_cons.mp hp with rfl | hp' <;> rcases List.mem_cons.mp hr with rfl | hr'
      · rfl
      · exact absurd (by rw [hk]; exact List.mem_map_of_mem Prod.fst hr') h.1
      · exact absurd (by rw [← hk]; exact List.mem_map_of_mem Prod.fst hp') h.1
      · exact ih h.2 hp' hr'

/-! ### C1: eviction on insert past capacity -/

/-- A one-entry cache at capacity whose only (hence lowest-scored) key
is the empty string. -/
def c1Cex : OptimizedCache Nat :=
  { entries := [("", ⟨0, 0, 100, 0⟩)], maxSize := 1, defaultTTL := 100 }

/-- C1 counterexample: `set` on a cache already holding
`maxSize` entries evicts nothing when the lowest-scored key is the
empty string (`evictOldest` guards the deletion with the truthiness
check `if (oldestKey)`, and the empty string is falsy), so the cache
grows to `maxSize + 1` and the lowest-scored entry survives —
contradicting the claim that exactly one entry, the lowest-scored one,
is always evicted before insertion. -/
theorem c1_evict_counterexample :
    c1Cex.maxSize = 1 ∧ c1Cex.entries.length = 1 ∧
    (c1Cex.set "a" 7 none 5).entries.length = 2 ∧
    List.lookup "" (c1Cex.set "a" 7 none 5).entries = some ⟨0, 0, 100, 0⟩ := by
  decide

/-- C1 (amended): when a `set` is performed on a cache already holding
`maxSize` entries, and the key selected by the eviction scan (the
first key of lowest exact score `age/(hits+1)`) is not the empty
string, then exactly that entry is evicted before the insertion; the
evicted entry has minimal score among all entries, and consequently no
entry with a strictly lower-scored peer (in particular a recently
accessed high-hit entry, whose score is small) is ever the evicted
one. -/
theorem c1_evict_lowest_score {α : Type} (c : OptimizedCache α) (k : String) (v : α)
    (ttl : Option Nat) (now : Nat) (km : String) (em : CacheEntry α)
    (hfull : c.maxSize ≤ c.entries.length)
    (hmin : evictChoice now c.entries = some (km, em))
    (hne : km ≠ "")
    (hnodup : (c.entries.map Prod.fst).Nodup) :
    (c.set k v ttl now).entries
        = mapSet k ⟨v, now, now + jsOrNat ttl c.defaultTTL, 0⟩ (mapDelete km c.entries)
    ∧ (km, em) ∈ c.entries
    ∧ (∀ p ∈ c.entries, scoreLeB now em p.2 = true)
    ∧ (∀ p ∈ c.entries, (∃ q ∈ c.entries, scoreLtB now q.2 p.2 = true) → p.1 ≠ km) := by
  obtain ⟨hmem, hlb⟩ := evictChoice_spec now c.entries (km, em) hmin
  refine ⟨?_, hmem, fun p hp => hlb p hp, ?_⟩
  · simp [OptimizedCache.set, OptimizedCache.evictOldest, hmin, hfull, hne]
  · intro p hp hq hpk
    obtain ⟨q, hqmem, hqlt⟩ := hq
    have hpe : p = (km, em) := keys_nodup_eq hnodup hp hmem hpk
    have hle : scoreLeB now em q.2 = true := hlb q hqmem
    rw [hpe] at hqlt
    exact scoreLt_le_asymm hqlt hle

def c1Wa : CacheEntry Nat := ⟨1, 0, 1000, 0⟩

def c1Wb : CacheEntry Nat := ⟨2, 8, 1000, 3⟩

/-- A two-entry cache at capacity: at time 10, key "a" has score
`10/1 = 10` and key "b" has score `2/4 = 0.5`, so "b" is selected. -/
def c1W : OptimizedCache Nat :=
  { entries := [("a", c1Wa), ("b", c1Wb)], maxSize := 2, defaultTTL := 300000 }

/-- C1 witness: concrete instantiation of the amended eviction
theorem. -/
theorem c1_evict_lowest_score_witness :
    (c1W.set "k" 5 none 10).entries
        = mapSet "k" ⟨5, 10, 10 + jsOrNat none c1W.defaultTTL, 0⟩ (mapDelete "b" c1W.entries)
    ∧ ("b", c1Wb) ∈ c1W.entries :=
  ⟨(c1_evict_lowest_score c1W "k" 5 none 10 "b" c1Wb (by decide) (by decide)
      (by decide) (by decide)).1,
   (c1_evict_lowest_score c1W "k" 5 none 10 "b" c1Wb (by decide) (by decide)
      (by decide) (by decide)).2.1⟩

/-! ### C2: TTL semantics of `get` and `has` -/

def c2Cex : OptimizedCache Nat := { entries := [], maxSize := 10, defaultTTL := 100 }

/-- C2 counterexample: after `set("k", 42, ttl = 10)` at time 0, a
`has("k")` access at time 11 reports the entry absent, but the expired
entry is NOT removed from the store by that access (`has` in the
source performs no delete, so the map still holds the key and
`size()` stays 1) — contradicting the claim that both `get` and `has`
lazily evict the expired entry. -/
theorem c2_ttl_counterexample :
    OptimizedCache.has (c2Cex.set "k" 42 (some 10) 0) "k" 11 = false
    ∧ (List.lookup "k" (c2Cex.set "k" 42 (some 10) 0).entries).isSome = true
    ∧ (c2Cex.set "k" 42 (some 10) 0).size = 1 := by
  decide

/-- C2 (amended): for a nonzero ttl (a zero ttl is falsy and falls
back to `defaultTTL`), after `set(k, v, ttl)` at time `t0`: `get(k)`
returns `v` at any access time strictly before `t0 + ttl` and `null`
at any access time strictly after it, and the expired entry is removed
from the store by the `get` access; `has` likewise reports an expired
entry absent — but, unlike the claim, `has` does not remove it. -/
theorem c2_ttl_get_has {α : Type} (c : OptimizedCache α) (k : String) (v : α)
    (ttl t0 t : Nat) (httl : ttl ≠ 0) :
    (t < t0 + ttl → (OptimizedCache.get (c.set k v (some ttl) t0) k t).1 = some v)
    ∧ (t0 + ttl < t →
        (OptimizedCache.get (c.set k v (some ttl) t0) k t).1 = none
        ∧ List.lookup k ((OptimizedCache.get (c.set k v (some ttl) t0) k t).2).entries = none
        ∧ OptimizedCache.has (c.set k v (some ttl) t0) k t = false) := by
  have hlk : List.lookup k (c.set k v (some ttl) t0).entries
      = some ⟨v, t0, t0 + ttl, 0⟩ := by
    simp [OptimizedCache.set, jsOrNat, httl, lookup_mapSet_self]
  constructor
  · intro hlt
    have hc : ¬ (t0 + ttl < t) := by omega
    simp [OptimizedCache.get, hlk, hc]
  · intro hgt
    refine ⟨?_, ?_, ?_⟩
    · simp [OptimizedCache.get, hlk, hgt]
    · simp [OptimizedCache.get, hlk, hgt, lookup_mapDelete_self]
    · have hc : ¬ (t ≤ t0 + ttl) := by omega
      simp [OptimizedCache.has, hlk, hc]

/-- C2 witness: concrete instantiation of the TTL theorem, before and
after expiry. -/
theorem c2_ttl_get_has_witness :
    (OptimizedCache.get (c2Cex.set "k" 42 (some 10) 0) "k" 5).1 = some 42
    ∧ (OptimizedCache.get (c2Cex.set "k" 42 (some 10) 0) "k" 11).1 = none
    ∧ OptimizedCache.has (c2Cex.set "k" 42 (some 10) 0) "k" 11 = false :=
  ⟨(c2_ttl_get_has c2Cex "k" 42 10 0 5 (by decide)).1 (by omega),
   ((c2_ttl_get_has c2Cex "k" 42 10 0 11 (by decide)).2 (by omega)).1,
   ((c2_ttl_get_has c2Cex "k" 42 10 0 11 (by decide)).2 (by omega)).2.2⟩

/-! ## The advanced sync engine of useAdvancedSync.tsx

The supabase network is abstracted: a write-through outcome is
`none` (resolved) or `some e` (rejected with error `e`); the re-fetch
of the current server row inside `handleConflict` is abstracted as the
`serverData` argument.  Writes issued to the server are logged in
`serverWrites`. -/

inductive Operation where
  | insert
  | update
  | delete
deriving DecidableEq, Repr

inductive StrategyType where
  | lastWriteWins
  | merge
  | userChoice
  | operationalTransform
deriving DecidableEq, Repr

structure ConflictResolutionStrategy where
  type : StrategyType
  resolver : Option (RecordData → RecordData → Option RecordData → RecordData) := none

structure PendingUpdate where
  id : String
  table : String
  operation : Operation
  data : RecordData
  originalData : Option RecordData := none
  timestamp : Nat
  retryCount : Nat
deriving DecidableEq, Repr

/-- The `update.data.id` field (the `data` of a PendingUpdate is built
as `{ id, ...updates }`). -/
def PendingUpdate.dataId (u : PendingUpdate) : String :=
  match List.lookup "id" u.data with
  | some (.str s) => s
  | _ => ""

structure ConflictEvent where
  table : String
  recordId : String
  localData : RecordData
  remoteData : RecordData
  baseData : Option RecordData
  strategy : ConflictResolutionStrategy

structure EngineState where
  pendingUpdates : List PendingUpdate
  conflicts : List ConflictEvent
  cache : OptimizedCache RecordData
  serverWrites : List (Operation × String × String × RecordData)
  lastSyncTime : Option Nat := none
  isSyncing : Bool := false

structure SyncError where
  code : Option String := none
  message : Option String := none
deriving DecidableEq, Repr

/-- `error.code === '23505' || error.message?.includes('conflict')`. -/
def isConflictError (e : SyncError) : Bool :=
  e.code == some "23505" ||
    (match e.message with
     | some m => strIncludes m "conflict"
     | none => false)

/-- `x || y || 0` on optional JS values (a present falsy value also
falls through). -/
def jsOrVal (opt : Option JsVal) (dflt : JsVal) : JsVal :=
  match opt with
  | some v => if v.truthy then v else dflt
  | none => dflt

/-- `data.updated_at || data.timestamp || 0`. -/
def lwwTime (r : RecordData) : JsVal :=
  jsOrVal (List.lookup "updated_at" r) (jsOrVal (List.lookup "timestamp" r) (.num 0))

/-- The last-write-wins branch of `resolveConflict`:
`localTime > remoteTime ? localData : remoteData`. -/
def lwwResolve (localData remoteData : RecordData) : RecordData :=
  if jsGt (lwwTime localData) (lwwTime remoteData) then localData else remoteData

/-- `resolveConflict` (its returned value; the `user-choice` branch
returns `null` and its push onto the conflicts list is performed by
`handleConflict` below).  `nowIso` is `new Date().toISOString()`. -/
def resolveConflict (c : ConflictEvent) (nowIso : String) : Option RecordData :=
  match c.strategy.type with
  | .lastWriteWins => some (lwwResolve c.localData c.remoteData)
  | .merge => some (recMerge (recMerge c.remoteData c.localData) [("updated_at", .str nowIso)])
  | .userChoice => none
  | .operationalTransform =>
      match c.strategy.resolver with
      | some f => some (f c.localData c.remoteData c.baseData)
      | none => some c.localData

/-- The ConflictEvent `handleConflict` builds from a rejected update
and the re-fetched server row. -/
def conflictRecordOf (u : PendingUpdate) (serverData : RecordData)
    (strategy : ConflictResolutionStrategy) : ConflictEvent :=
  { table := u.table, recordId := u.dataId, localData := u.data,
    remoteData := serverData, baseData := u.originalData, strategy := strategy }

/-- `handleConflict`: build the conflict record, resolve it per
strategy (`user-choice` appends it to the conflicts list and resolves
to `null`), and when a resolution exists apply it — a server update
write when the operation is `update`, and a cache overwrite always. -/
def handleConflict (st : EngineState) (u : PendingUpdate) (serverData : RecordData)
    (strategy : ConflictResolutionStrategy) (nowIso : String) (now : Nat) : EngineState :=
  let conflict := conflictRecordOf u serverData strategy
  let conflicts1 :=
    if strategy.type = .userChoice then st.conflicts ++ [conflict] else st.conflicts
  match resolveConflict conflict nowIso with
  | some resolved =>
      { st with
        conflicts := conflicts1,
        serverWrites :=
          if u.operation = .update then
            st.serverWrites ++ [(.update, u.table, u.dataId, resolved)]
          else st.serverWrites,
        cache := st.cache.set (u.table ++ "-" ++ u.dataId) resolved none now }
  | none => { st with conflicts := conflicts1 }

/-- `syncUpdate`: issue the write; a rejection with a conflict-class
error is routed to `handleConflict` and the call resolves normally;
any other rejection is rethrown. -/
def syncUpdate (st : EngineState) (u : PendingUpdate) (outcome : Option SyncError)
    (serverData : RecordData) (strategy : ConflictResolutionStrategy)
    (nowIso : String) (now : Nat) : Except SyncError EngineState :=
  match outcome with
  | none =>
      .ok { st with serverWrites := st.serverWrites ++ [(u.operation, u.table, u.dataId, u.data)] }
  | some e =>
      if isConflictError e then .ok (handleConflict st u serverData strategy nowIso now)
      else .error e

/-- The synchronous portion of `optimisticUpdate` (everything before
the awaited immediate write-through): snapshot the prior cached value
as `originalData`, enqueue the PendingUpdate, and apply the change to
the cache — merge for `update`, removal for `delete`; the source has
no `insert` branch, so an insert leaves the cache untouched. -/
def optimisticUpdate (st : EngineState) (table id : String) (updates : RecordData)
    (op : Operation) (now : Nat) : EngineState :=
  let key := table ++ "-" ++ id
  let updateId := table ++ "-" ++ id ++ "-" ++ toString now
  let g1 := st.cache.get key now
  let pu : PendingUpdate :=
    { id := updateId, table := table, operation := op,
      data := recMerge [("id", .str id)] updates,
      originalData := g1.1, timestamp := now, retryCount := 0 }
  let cache2 :=
    match op with
    | .update =>
        let g2 := g1.2.get key now
        OptimizedCache.set g2.2 key (recMerge (g2.1.getD []) updates) none now
    | .delete => g1.2.delete key
    | .insert => g1.2
  { st with pendingUpdates := st.pendingUpdates ++ [pu], cache := cache2 }

/-- One pass of `syncPendingUpdates`: skipped when the queue is empty
or a pass is already running; otherwise every queued update is
attempted (`outcome u = true` models `syncUpdate` resolving), a failed
update is requeued with its retry counter bumped while
`retryCount < retryAttempts`, and dropped otherwise. -/
def syncPendingUpdates (st : EngineState) (outcome : PendingUpdate → Bool)
    (retryAttempts : Nat) (now : Nat) : EngineState :=
  if st.pendingUpdates.length = 0 || st.isSyncing then st
  else
    let failed := (st.pendingUpdates.filter (fun u => !(outcome u))).filterMap
      (fun u =>
        if u.retryCount < retryAttempts then some { u with retryCount := u.retryCount + 1 }
        else none)
    { st with pendingUpdates := failed, lastSyncTime := some now, isSyncing := false }

structure SyncStats where
  pendingCount : Nat
  conflictCount : Nat
  lastSyncTime : Option Nat
  isSyncing : Bool
deriving DecidableEq, Repr

/-- `getSyncStats`: the full sync telemetry the hook exposes. -/
def getSyncStats (st : EngineState) : SyncStats :=
  { pendingCount := st.pendingUpdates.length, conflictCount := st.conflicts.length,
    lastSyncTime := st.lastSyncTime, isSyncing := st.isSyncing }

/-! ### Cache/record lemmas for the sync engine -/

theorem cacheGet_set_self {α : Type} (c : OptimizedCache α) (k : String) (v : α)
    (ttl : Option Nat) (now : Nat) :
    (OptimizedCache.get (c.set k v ttl now) k now).1 = some v := by
  have hlk : List.lookup k (c.set k v ttl now).entries
      = some ⟨v, now, now + jsOrNat ttl c.defaultTTL, 0⟩ := by
    simp [OptimizedCache.set, lookup_mapSet_self]
  have hc : ¬ (now + jsOrNat ttl c.defaultTTL < now) := by omega
  simp [OptimizedCache.get, hlk, hc]

theorem lookup_recMerge_single (k : String) (v : JsVal) (a : RecordData) :
    List.lookup k (recMerge a [(k, v)]) = some v := by
  induction a with
  | nil => simp [recMerge, List.lookup]
  | cons p rest ih =>
      by_cases h : p.1 = k
      · simp [recMerge, List.lookup, h]
      · have hne : (p.1 == k) = false := beq_eq_false_iff_ne.mpr h
        have hkp : (k == p.1) = false := beq_eq_false_iff_ne.mpr (Ne.symm h)
        simp only [recMerge, List.map_cons, List.cons_append, List.append_eq, List.lookup,
          hkp, List.any_cons, hne, Bool.false_or, List.filter_cons, List.filter_nil] at ih ⊢
        exact ih

/-! ### C3: optimistic update visibility in the cache -/

/-- The initially empty engine state (cache parameters as configured
in useAdvancedSync.tsx: maxSize 500, ttl 10 minutes). -/
def engine0 : EngineState :=
  { pendingUpdates := [], conflicts := [],
    cache := { entries := [], maxSize := 500, defaultTTL := 600000 },
    serverWrites := [] }

/-- C3 counterexample: the synchronous portion of
`optimisticUpdate(table, id, updates, 'insert')` does not insert the
new record into the cache — the source only has branches for `update`
and `delete` — so right after an insert the cache still misses the
key, contradicting the claim that an insert places the new record in
the cache. -/
theorem c3_insert_counterexample :
    ((optimisticUpdate engine0 "cameras" "c1" [("is_active", .bool true)] .insert 0).cache.get
        "cameras-c1" 0).1 = none
    ∧ (optimisticUpdate engine0 "cameras" "c1" [("is_active", .bool true)] .insert 0).cache
        = engine0.cache := by
  decide

theorem lookup_append_some {β : Type} (f : String) {l1 : List (String × β)}
    (l2 : List (String × β)) {w : β}
    (h : List.lookup f l1 = some w) : List.lookup f (l1 ++ l2) = some w := by
  induction l1 with
  | nil => cases h
  | cons p rest ih =>
      cases hpf : (f == p.1)
      · simp only [List.cons_append, List.lookup, hpf] at h ⊢
        exact ih h
      · simp only [List.cons_append, List.lookup, hpf] at h ⊢
        exact h

theorem lookup_append_none {β : Type} (f : String) {l1 : List (String × β)}
    (l2 : List (String × β))
    (h : List.lookup f l1 = none) : List.lookup f (l1 ++ l2) = List.lookup f l2 := by
  induction l1 with
  | nil => rfl
  | cons p rest ih =>
      cases hpf : (f == p.1)
      · simp only [List.cons_append, List.lookup, hpf] at h ⊢
        exact ih h
      · simp only [List.lookup, hpf] at h
        cases h

theorem lookup_recMerge_map (k f : String) (v : JsVal) (a : RecordData) (hfk : f ≠ k) :
    List.lookup f (a.map (fun p => (p.1, (List.lookup p.1 [(k, v)]).getD p.2)))
      = List.lookup f a := by
  induction a with
  | nil => rfl
  | cons p rest ih =>
      cases hpf : (f == p.1)
      · simp only [List.map_cons, List.lookup, hpf]
        exact ih
      · have hpe : f = p.1 := eq_of_beq hpf
        have hpk : (p.1 == k) = false := beq_eq_false_iff_ne.mpr (by rw [← hpe]; exact hfk)
        simp only [List.map_cons, List.lookup, hpf, hpk, Option.getD_none]

/-- Merging a single-field record changes no other field: for
`f ≠ k`, `lookup f ({...a, k: v})` is `lookup f a`. -/
theorem lookup_recMerge_single_ne (k f : String) (v : JsVal) (a : RecordData)
    (hfk : f ≠ k) :
    List.lookup f (recMerge a [(k, v)]) = List.lookup f a := by
  unfold recMerge
  cases hcase : List.lookup f a with
  | some w =>
      exact lookup_append_some f _ (by rw [lookup_recMerge_map k f v a hfk]; exact hcase)
  | none =>
      rw [lookup_append_none f _ (by rw [lookup_recMerge_map k f v a hfk]; exact hcase)]
      have hfkb : (f == k) = false := beq_eq_false_iff_ne.mpr hfk
      by_cases hc : (a.any fun p => p.1 == k) = true
      · simp [List.filter_cons, hc, List.lookup]
      · simp [List.filter_cons, hc, List.lookup, hfkb]

/-- C3 (amended): the synchronous portion of `optimisticUpdate`
applies the change to the cache before any network write: for
`update` the changes are merged into the current cached record — the
result at `cameras-` ++ id always carries `is_active = true`, and
when a live record was cached the new cached value is exactly that
record merged with the change, its other fields preserved; for
`delete` the cache entry is removed whatever the prior state; but for
`insert` no insertion happens — the cached value at the key stays
exactly what the snapshot read found, never the new record. -/
theorem c3_optimistic_cache (st : EngineState) (id : String) (now : Nat) :
    (((optimisticUpdate st "cameras" id [("is_active", JsVal.bool true)] .update now).cache.get
        ("cameras-" ++ id) now).1
      = some (recMerge ((((st.cache.get ("cameras-" ++ id) now).2.get ("cameras-" ++ id) now).1).getD [])
          [("is_active", JsVal.bool true)])
      ∧ ∀ rec, (((optimisticUpdate st "cameras" id [("is_active", JsVal.bool true)] .update now).cache.get
          ("cameras-" ++ id) now).1 = some rec →
          List.lookup "is_active" rec = some (JsVal.bool true)))
    ∧ (∀ e : CacheEntry RecordData,
        List.lookup ("cameras-" ++ id) st.cache.entries = some e → ¬ (e.expiresAt < now) →
        ((optimisticUpdate st "cameras" id [("is_active", JsVal.bool true)] .update now).cache.get
            ("cameras-" ++ id) now).1
          = some (recMerge e.data [("is_active", JsVal.bool true)]))
    ∧ (∀ (a : RecordData) (f : String), f ≠ "is_active" →
        List.lookup f (recMerge a [("is_active", JsVal.bool true)]) = List.lookup f a)
    ∧ List.lookup ("cameras-" ++ id)
        (optimisticUpdate st "cameras" id [("is_active", JsVal.bool true)] .delete now).cache.entries
        = none
    ∧ ((optimisticUpdate st "cameras" id [("is_active", JsVal.bool true)] .insert now).cache.get
        ("cameras-" ++ id) now).1 = (st.cache.get ("cameras-" ++ id) now).1 := by
  refine ⟨⟨?_, ?_⟩, ?_, ?_, ?_, ?_⟩
  · exact cacheGet_set_self _ _ _ _ _
  · intro rec hrec
    have h1 : (((optimisticUpdate st "cameras" id [("is_active", JsVal.bool true)] .update now).cache.get
        ("cameras-" ++ id) now).1)
        = some (recMerge ((((st.cache.get ("cameras-" ++ id) now).2.get ("cameras-" ++ id) now).1).getD [])
            [("is_active", JsVal.bool true)]) := cacheGet_set_self _ _ _ _ _
    rw [h1] at hrec
    cases hrec
    exact lookup_recMerge_single _ _ _
  · intro e he hlive
    have h1 : st.cache.get ("cameras-" ++ id) now
        = (some e.data,
           { st.cache with
              entries := mapSet ("cameras-" ++ id) { e with hits := e.hits + 1 } st.cache.entries }) := by
      simp [OptimizedCache.get, he, hlive]
    have h3 : ((st.cache.get ("cameras-" ++ id) now).2.get ("cameras-" ++ id) now).1
        = some e.data := by
      rw [h1]
      simp [OptimizedCache.get, lookup_mapSet_self, hlive]
    have hres := cacheGet_set_self
        ((st.cache.get ("cameras-" ++ id) now).2.get ("cameras-" ++ id) now).2
        ("cameras-" ++ id)
        (recMerge ((((st.cache.get ("cameras-" ++ id) now).2.get ("cameras-" ++ id) now).1).getD [])
          [("is_active", JsVal.bool true)])
        none now
    rw [h3] at hres
    simp only [Option.getD_some] at hres
    simp only [optimisticUpdate]
    simp only [show ("cameras" ++ "-" : String) = "cameras-" from rfl]
    rw [h3]
    simp only [Option.getD_some]
    exact hres
  · intro a f hf
    exact lookup_recMerge_single_ne "is_active" f (JsVal.bool true) a hf
  · exact lookup_mapDelete_self _ _
  · cases hcase : List.lookup ("cameras-" ++ id) st.cache.entries with
    | none => simp [optimisticUpdate, OptimizedCache.get, hcase]
    | some e =>
        by_cases hexp : e.expiresAt < now
        · simp [optimisticUpdate, OptimizedCache.get, hcase, hexp, lookup_mapDelete_self]
        · simp [optimisticUpdate, OptimizedCache.get, hcase, hexp, lookup_mapSet_self]

def c3Rec : RecordData :=
  [("id", JsVal.str "c1"), ("name", JsVal.str "main cam"), ("is_active", JsVal.bool false)]

def c3Entry : CacheEntry RecordData := ⟨c3Rec, 0, 1000, 0⟩

/-- An engine state whose cache already holds a live record for
`cameras-c1`. -/
def c3PopSt : EngineState :=
  { pendingUpdates := [], conflicts := [],
    cache := { entries := [("cameras-c1", c3Entry)], maxSize := 500, defaultTTL := 600000 },
    serverWrites := [] }

/-- C3 witness: concrete instantiation on a populated cache: the
update merges into the existing live record (its other fields
preserved), the delete removes the existing entry, and the insert
leaves the cached value as the snapshot read found it. -/
theorem c3_optimistic_cache_witness :
    ((optimisticUpdate c3PopSt "cameras" "c1" [("is_active", JsVal.bool true)] .update 5).cache.get
        "cameras-c1" 5).1 = some (recMerge c3Rec [("is_active", JsVal.bool true)])
    ∧ List.lookup "name" (recMerge c3Rec [("is_active", JsVal.bool true)])
        = List.lookup "name" c3Rec
    ∧ List.lookup "cameras-c1"
        (optimisticUpdate c3PopSt "cameras" "c1" [("is_active", JsVal.bool true)] .delete 5).cache.entries
        = none
    ∧ ((optimisticUpdate c3PopSt "cameras" "c1" [("is_active", JsVal.bool true)] .insert 5).cache.get
        "cameras-c1" 5).1 = (c3PopSt.cache.get "cameras-c1" 5).1 :=
  ⟨(c3_optimistic_cache c3PopSt "c1" 5).2.1 c3Entry (by decide) (by decide),
   (c3_optimistic_cache c3PopSt "c1" 5).2.2.1 c3Rec "name" (by decide),
   (c3_optimistic_cache c3PopSt "c1" 5).2.2.2.1,
   (c3_optimistic_cache c3PopSt "c1" 5).2.2.2.2⟩

/-! ### C4: retry exhaustion in the periodic sync -/

/-- A freshly enqueued pending update (retry counter 0). -/
def c4Update : PendingUpdate :=
  { id := "cameras-c9-100", table := "cameras", operation := .update,
    data := [("id", .str "c9"), ("is_active", .bool true)],
    originalData := none, timestamp := 100, retryCount := 0 }

def c4State : EngineState :=
  { pendingUpdates := [c4Update], conflicts := [],
    cache := { entries := [], maxSize := 500, defaultTTL := 600000 },
    serverWrites := [], lastSyncTime := none, isSyncing := false }

/-- `n` consecutive periodic sync passes in which the write-through of
every pending update fails with a (non-conflict) error, at the default
`retryAttempts = 3`. -/
def c4Run : Nat → EngineState
  | 0 => c4State
  | n + 1 => syncPendingUpdates (c4Run n) (fun _ => false) 3 (n + 1)

/-- C4: a pending update whose write-through fails on
`retryAttempts + 1 = 4` consecutive sync passes is still queued after
pass 3 and is removed from the queue by pass 4 (this half of the claim
holds); but the permanent loss is invisible to the caller: the engine
state after the dropping pass is indistinguishable — identical
`getSyncStats` output, identical pending queue, identical conflicts
list — from the state after a pass in which the update succeeded, and
the hook exposes no other stats field or observer callback (the source
only emits `console.error`). -/
theorem c4_retry_exhaustion_silent :
    (c4Run 3).pendingUpdates = [{ c4Update with retryCount := 3 }]
    ∧ (c4Run 4).pendingUpdates = []
    ∧ getSyncStats (c4Run 4) = getSyncStats (syncPendingUpdates (c4Run 3) (fun _ => true) 3 4)
    ∧ (c4Run 4).pendingUpdates = (syncPendingUpdates (c4Run 3) (fun _ => true) 3 4).pendingUpdates
    ∧ (c4Run 4).conflicts = (syncPendingUpdates (c4Run 3) (fun _ => true) 3 4).conflicts := by
  refine ⟨?_, ?_, ?_, ?_, ?_⟩ <;> rfl

/-! ### C5: conflict-class write failures are never silently dropped -/

/-- C5: when a write-through fails with a conflict-class error
(unique-violation code 23505 or a message containing "conflict"),
`syncUpdate` resolves normally with the state produced by
`handleConflict` on the re-fetched server row: under `user-choice` the
constructed ConflictRecord is appended to the conflicts list (cache
and server writes untouched); under `last-write-wins` or `merge` a
deterministic resolution is computed by `resolveConflict` and applied
to the cache, plus a server update write when the operation is
`update`.  In neither case does the update vanish without trace. -/
theorem c5_conflict_non_loss (st : EngineState) (u : PendingUpdate)
    (serverData : RecordData) (strategy : ConflictResolutionStrategy)
    (nowIso : String) (now : Nat) (e : SyncError)
    (hconf : isConflictError e = true) :
    syncUpdate st u (some e) serverData strategy nowIso now
        = .ok (handleConflict st u serverData strategy nowIso now)
    ∧ (strategy.type = .userChoice →
        (handleConflict st u serverData strategy nowIso now).conflicts
            = st.conflicts ++ [conflictRecordOf u serverData strategy]
        ∧ (handleConflict st u serverData strategy nowIso now).cache = st.cache
        ∧ (handleConflict st u serverData strategy nowIso now).serverWrites = st.serverWrites)
    ∧ (strategy.type = .lastWriteWins ∨ strategy.type = .merge →
        ∃ r, resolveConflict (conflictRecordOf u serverData strategy) nowIso = some r
        ∧ (handleConflict st u serverData strategy nowIso now).cache
            = st.cache.set (u.table ++ "-" ++ u.dataId) r none now
        ∧ (handleConflict st u serverData strategy nowIso now).conflicts = st.conflicts
        ∧ (u.operation = .update →
            (handleConflict st u serverData strategy nowIso now).serverWrites
                = st.serverWrites ++ [(.update, u.table, u.dataId, r)])) := by
  refine ⟨by simp [syncUpdate, hconf], ?_, ?_⟩
  · intro htype
    simp [handleConflict, resolveConflict, conflictRecordOf, htype]
  · intro htype
    rcases htype with h | h
    · refine ⟨lwwResolve u.data serverData, ?_, ?_, ?_, ?_⟩
      · simp [resolveConflict, conflictRecordOf, h]
      · simp [handleConflict, resolveConflict, conflictRecordOf, h]
      · simp [handleConflict, resolveConflict, conflictRecordOf, h]
      · intro hop
        simp [handleConflict, resolveConflict, conflictRecordOf, h, hop]
    · refine ⟨recMerge (recMerge serverData u.data) [("updated_at", .str nowIso)], ?_, ?_, ?_, ?_⟩
      · simp [resolveConflict, conflictRecordOf, h]
      · simp [handleConflict, resolveConflict, conflictRecordOf, h]
      · simp [handleConflict, resolveConflict, conflictRecordOf, h]
      · intro hop
        simp [handleConflict, resolveConflict, conflictRecordOf, h, hop]

def c5Server : RecordData := [("id", .str "c9"), ("updated_at", .num 50)]

def c5Err : SyncError := { code := some "23505", message := none }

def c5Lww : ConflictResolutionStrategy := { type := .lastWriteWins }

def c5Choice : ConflictResolutionStrategy := { type := .userChoice }

/-- C5 witness: concrete instantiations, one under last-write-wins and
one under user-choice. -/
theorem c5_conflict_non_loss_witness :
    syncUpdate engine0 c4Update (some c5Err) c5Server c5Lww "t" 7
        = .ok (handleConflict engine0 c4Update c5Server c5Lww "t" 7)
    ∧ (handleConflict engine0 c4Update c5Server c5Choice "t" 7).conflicts
        = engine0.conflicts ++ [conflictRecordOf c4Update c5Server c5Choice] :=
  ⟨(c5_conflict_non_loss engine0 c4Update c5Server c5Lww "t" 7 c5Err (by decide)).1,
   ((c5_conflict_non_loss engine0 c4Update c5Server c5Choice "t" 7 c5Err (by decide)).2.1
      rfl).1⟩

/-! ### C10: the last-write-wins tiebreak -/

/-- Modelled from the claim wording, as the refinement reference: the
timestamp read as "updated_at, falling back to timestamp (when
absent), defaulting to 0 when absent". -/
def claimLwwTime (r : RecordData) : JsVal :=
  (List.lookup "updated_at" r).getD ((List.lookup "timestamp" r).getD (JsVal.num 0))

def c10Local : RecordData := [("updated_at", JsVal.num 0), ("timestamp", JsVal.num 5)]

def c10Remote : RecordData := [("updated_at", JsVal.num 3)]

/-- C10 counterexample: with a present-but-zero `updated_at` the code
falls through to `timestamp` (JS `||` skips falsy values), while the
claim computes the local timestamp as the present `updated_at = 0`.
Here the claim demands the remote record (0 is not greater than 3)
but `resolveConflict` returns the local one (5 > 3). -/
theorem c10_lww_counterexample :
    lwwResolve c10Local c10Remote = c10Local
    ∧ jsGt (claimLwwTime c10Local) (claimLwwTime c10Remote) = false
    ∧ c10Local ≠ c10Remote := by
  decide

/-- C10 (amended): with timestamps computed as the first truthy
(nonzero) of `updated_at` then `timestamp`, defaulting to 0, the
last-write-wins resolution returns the local data exactly when the
local timestamp strictly exceeds the remote one, and the remote data
in every other case — ties included. -/
theorem c10_lww_tiebreak (l r : RecordData) (a b : Int)
    (h1 : lwwTime l = JsVal.num a) (h2 : lwwTime r = JsVal.num b) :
    (b < a → lwwResolve l r = l) ∧ (a ≤ b → lwwResolve l r = r) := by
  unfold lwwResolve
  rw [h1, h2]
  constructor
  · intro h
    simp [jsGt, h]
  · intro h
    simp [jsGt, not_lt.mpr h]

def c10L2 : RecordData := [("updated_at", JsVal.num 9)]

def c10R2 : RecordData := [("updated_at", JsVal.num 4)]

/-- C10 witness: a strictly newer local record wins; otherwise (here
with the roles swapped, a ≤ b) the remote record is returned. -/
theorem c10_lww_tiebreak_witness :
    lwwResolve c10L2 c10R2 = c10L2 ∧ lwwResolve c10R2 c10L2 = c10L2 :=
  ⟨(c10_lww_tiebreak c10L2 c10R2 9 4 (by decide) (by decide)).1 (by decide),
   (c10_lww_tiebreak c10R2 c10L2 4 9 (by decide) (by decide)).2 (by decide)⟩

/-! ## The RealtimeConnectionManager of useRealtimeConnection.tsx

Timers are externalised: `handleConnectionClose` returns the delay of
the reconnect it schedules (if any), and `reconnectTimerFire` is the
body of that timeout.  Channels are tracked as the registered map keys
plus the set of channels currently attached to the supabase client;
`onStatsUpdate` payloads are logged in `publishedStats` in order.
Latency measurement and the message counters are not touched by the
handlers modelled here. -/

inductive ConnectionQuality where
  | excellent
  | good
  | poor
  | disconnected
deriving DecidableEq, Repr

structure RealtimeConnectionStats where
  connected : Bool
  reconnectAttempts : Nat
  lastReconnectTime : Option Nat := none
  connectionQuality : ConnectionQuality := .disconnected
deriving DecidableEq, Repr

structure RealtimeConnectionOptions where
  autoReconnect : Bool := true
  maxReconnectAttempts : Nat := 5
  reconnectDelay : Nat := 1000
deriving DecidableEq, Repr

structure ManagerState where
  stats : RealtimeConnectionStats
  registeredChannels : List String
  liveChannels : List String
  publishedStats : List RealtimeConnectionStats
deriving DecidableEq, Repr

/-- `updateStats`: publish the current stats to the observer. -/
def updateStats (st : ManagerState) : ManagerState :=
  { st with publishedStats := st.publishedStats ++ [st.stats] }

/-- `handleConnectionOpen`: `connected := true`,
`reconnectAttempts := 0`, quality excellent — all set before the stats
are published (it also clears the health-check interval; timers are
external to this model). -/
def handleConnectionOpen (st : ManagerState) : ManagerState :=
  updateStats
    { st with stats :=
        { st.stats with
            connected := true,
            reconnectAttempts := 0,
            connectionQuality := .excellent } }

/-- The delay `reconnectDelay * 2 ^ reconnectAttempts` computed by
`scheduleReconnect`. -/
def scheduleReconnectDelay (opts : RealtimeConnectionOptions) (st : ManagerState) : Nat :=
  opts.reconnectDelay * 2 ^ st.stats.reconnectAttempts

/-- `handleConnectionClose`: mark disconnected, publish, and — when
auto-reconnect is on and the attempt budget is not exhausted — return
the delay after which the single reconnect timeout is scheduled. -/
def handleConnectionClose (opts : RealtimeConnectionOptions) (st : ManagerState) :
    ManagerState × Option Nat :=
  let st1 := updateStats
    { st with stats :=
        { st.stats with
            connected := false,
            connectionQuality := .disconnected } }
  if opts.autoReconnect = true ∧ st1.stats.reconnectAttempts < opts.maxReconnectAttempts then
    (st1, some (scheduleReconnectDelay opts st1))
  else
    (st1, none)

/-- `resubscribeAllChannels`: for every registered channel the source
calls `supabase.removeChannel(channel)` and then only logs
"Resubscribing" — the re-creation announced by its comment is absent,
so registered channels are detached from the client and nothing is
created or subscribed in their place. -/
def resubscribeAllChannels (st : ManagerState) : ManagerState :=
  { st with liveChannels := st.liveChannels.filter (fun c => !(st.registeredChannels.contains c)) }

/-- The body of the timeout set by `scheduleReconnect`: bump the
attempt counter, stamp the time, publish, and run
`resubscribeAllChannels`. -/
def reconnectTimerFire (now : Nat) (st : ManagerState) : ManagerState :=
  resubscribeAllChannels
    (updateStats
      { st with stats :=
          { st.stats with
              reconnectAttempts := st.stats.reconnectAttempts + 1,
              lastReconnectTime := some now } })

/-- The condition of the connection-restore effect in
useRealtimeEventUpdates.tsx:
`stats.connected && stats.reconnectAttempts > 0` triggers
`loadEventData()` and `loadCameras()`. -/
def refetchEffectFires (s : RealtimeConnectionStats) : Bool :=
  s.connected && decide (0 < s.reconnectAttempts)

def defaultConnOptions : RealtimeConnectionOptions := {}

/-- A healthy connected manager with one registered, live channel. -/
def c6ManagerStart : ManagerState :=
  { stats :=
      { connected := true,
        reconnectAttempts := 0,
        lastReconnectTime := none,
        connectionQuality := .excellent },
    registeredChannels := ["event_updates_e1"],
    liveChannels := ["event_updates_e1"],
    publishedStats := [] }

/-- C6: on a detected disconnect with default options the (single)
reconnect attempt is indeed scheduled `1000 = reconnectDelay * 2^0` ms
after detection, but when it fires it only tears channels down: the
registered channel is removed from the client and nothing is recreated
or resubscribed (`resubscribeAllChannels` logs instead of
re-creating), leaving no live channel — contradicting the claim that
each attempt tears down AND recreates every registered channel. -/
theorem c6_reconnect_no_recreate :
    (handleConnectionClose defaultConnOptions c6ManagerStart).2 = some 1000
    ∧ defaultConnOptions.reconnectDelay * 2 ^ 0 = 1000
    ∧ (reconnectTimerFire 7 (handleConnectionClose defaultConnOptions c6ManagerStart).1).stats.reconnectAttempts = 1
    ∧ (reconnectTimerFire 7 (handleConnectionClose defaultConnOptions c6ManagerStart).1).registeredChannels = ["event_updates_e1"]
    ∧ (reconnectTimerFire 7 (handleConnectionClose defaultConnOptions c6ManagerStart).1).liveChannels = [] := by
  decide

/-- The full restoration episode: disconnect detected, the reconnect
timeout fires, the connection comes back up. -/
def c7Trace : ManagerState :=
  handleConnectionOpen
    (reconnectTimerFire 5 (handleConnectionClose defaultConnOptions c6ManagerStart).1)

/-- C7: across a complete disconnect / reconnect-attempt / restore
episode, no published stats value ever satisfies the projector's
refetch condition `connected && reconnectAttempts > 0` —
`handleConnectionOpen` zeroes `reconnectAttempts` before publishing —
so the connection-restore effect never re-fetches the Event and
Camera snapshots, contradicting the claimed repair re-fetch. -/
theorem c7_restore_refetch_never_fires :
    c7Trace.stats.connected = true
    ∧ c7Trace.stats.reconnectAttempts = 0
    ∧ c7Trace.publishedStats.filter refetchEffectFires = []
    ∧ refetchEffectFires c7Trace.stats = false := by
  decide

/-! ## The presence handlers of useRealtimePresence.tsx

A presence payload (`channel.presenceState()`) is a record from
presence key to the list of per-connection records, in key insertion
order.  Record fields that a record may lack are optional. -/

structure PresenceUser where
  user_id : Option String := none
  online_at : Option String := none
  role : Option String := none
deriving DecidableEq, Repr

abbrev PresencePayload := List (String × List PresenceUser)

/-- The malformed-entry filter of `handlePresenceSync`:
`'user_id' in user && 'online_at' in user`. -/
def isValidPresence (u : PresenceUser) : Bool :=
  u.user_id.isSome && u.online_at.isSome

/-- The `rolePriority` lookup table
`&#123; director: 3, camera_operator: 2, viewer: 1 &#125;`; indexing any
other key yields `undefined`. -/
def rolePriority (r : String) : Option Nat :=
  if r = "director" then some 3
  else if r = "camera_operator" then some 2
  else if r = "viewer" then some 1
  else none

/-- `user.role || 'viewer'` (an absent or empty role is falsy). -/
def roleKey (role : Option String) : String :=
  match role with
  | some s => if s = "" then "viewer" else s
  | none => "viewer"

/-- `rolePriority[user.role || 'viewer'] || 1` (the listed priorities
are nonzero, so the trailing `|| 1` only fires for unknown roles). -/
def priorityOf (role : Option String) : Nat :=
  (rolePriority (roleKey role)).getD 1

/-- The sort order of `handlePresenceSync`: descending role priority
(the comparator returns `priority b - priority a`). -/
def rolePrecedes (a b : PresenceUser) : Prop :=
  priorityOf b.role ≤ priorityOf a.role

instance : DecidableRel rolePrecedes :=
  fun a b => Nat.decLe (priorityOf b.role) (priorityOf a.role)

instance : IsTotal PresenceUser rolePrecedes :=
  ⟨fun a b => le_total (priorityOf b.role) (priorityOf a.role)⟩

instance : IsTrans PresenceUser rolePrecedes :=
  ⟨fun _ _ _ hab hbc => le_trans hbc hab⟩

/-- JS `Array.prototype.sort` is a stable sort; with the descending
priority comparator it is the stable insertion sort under
`rolePrecedes`. -/
def sortUsersByRole (us : List PresenceUser) : List PresenceUser :=
  List.insertionSort rolePrecedes us

inductive IndicatorType where
  | cursor
  | selection
  | edit
  | focus
deriving DecidableEq, Repr

structure CollaborationIndicator where
  type : IndicatorType
  user_id : Option String
  element : Option String := none
deriving DecidableEq, Repr

structure PresenceHookState where
  presenceState : PresencePayload
  onlineUsers : List PresenceUser
  collaborationIndicators : List CollaborationIndicator
deriving DecidableEq, Repr

/-- `handlePresenceSync`: store the raw payload, then publish the
flattened, filtered, role-sorted user list (replacing, not appending
to, the previous list). -/
def handlePresenceSync (payload : PresencePayload) (st : PresenceHookState) :
    PresenceHookState :=
  { st with
    presenceState := payload,
    onlineUsers := sortUsersByRole (((payload.map Prod.snd).flatten).filter isValidPresence) }

/-- `handlePresenceLeave`: drop every collaboration indicator whose
`user_id` matches some departing record. -/
def handlePresenceLeave (leftPresences : List PresenceUser) (st : PresenceHookState) :
    PresenceHookState :=
  { st with collaborationIndicators :=
      (st.collaborationIndicators.filter
        (fun ind => !(leftPresences.any (fun u => u.user_id == ind.user_id)))) }

inductive CollabEventType where
  | cursor_move
  | element_focus
  | element_edit
deriving DecidableEq, Repr

/-- `handleCollaborationEvent`: replace the departing user's indicator
of the matching kind and append the fresh one. -/
def handleCollaborationEvent (t : CollabEventType) (uid : Option String)
    (element : Option String) (st : PresenceHookState) : PresenceHookState :=
  let kind : IndicatorType :=
    match t with
    | .cursor_move => .cursor
    | .element_focus => .focus
    | .element_edit => .edit
  { st with collaborationIndicators :=
      (st.collaborationIndicators.filter
          (fun ind => !((ind.type == kind) && (ind.user_id == uid))))
        ++ [{ type := kind, user_id := uid, element := element }] }

/-- C8: processing a presence sync payload is deterministic and
idempotent — delivering the same payload twice in a row yields an
identical hook state (in particular an identical `onlineUsers` list,
with no duplication) — and the published list is exactly the
flattening of all per-connection records with malformed entries
(missing `user_id` or `online_at`) removed, stably sorted by
descending role priority director(3) > camera_operator(2) >
viewer(1). -/
theorem c8_presence_sync_idempotent (st : PresenceHookState) (p : PresencePayload) :
    handlePresenceSync p (handlePresenceSync p st) = handlePresenceSync p st
    ∧ (handlePresenceSync p st).onlineUsers
        = sortUsersByRole (((p.map Prod.snd).flatten).filter isValidPresence)
    ∧ (∀ u ∈ (handlePresenceSync p st).onlineUsers, isValidPresence u = true)
    ∧ (handlePresenceSync p st).onlineUsers.Pairwise rolePrecedes := by
  refine ⟨rfl, rfl, ?_, ?_⟩
  · intro u hu
    have hperm :=
      List.perm_insertionSort rolePrecedes (((p.map Prod.snd).flatten).filter isValidPresence)
    have hmem : u ∈ ((p.map Prod.snd).flatten).filter isValidPresence := hperm.mem_iff.mp hu
    exact List.of_mem_filter hmem
  · exact List.sorted_insertionSort rolePrecedes _

/-- C9: after a presence leave event whose departing records include
user `uid`, no collaboration indicator carrying that `user_id`
survives in the tracked indicator state. -/
theorem c9_leave_prunes_indicators (st : PresenceHookState)
    (leftPresences : List PresenceUser) (uid : String)
    (hleft : ∃ u ∈ leftPresences, u.user_id = some uid) :
    ∀ ind ∈ (handlePresenceLeave leftPresences st).collaborationIndicators,
      ind.user_id ≠ some uid := by
  intro ind hind heq
  obtain ⟨u, hu, huid⟩ := hleft
  have hmem := List.mem_filter.mp hind
  have hany : leftPresences.any (fun v => v.user_id == ind.user_id) = false := by
    simpa using hmem.2
  simp only [List.any_eq_false] at hany
  exact hany u hu (by rw [huid, heq]; exact beq_self_eq_true _)

def c9Left : List PresenceUser := [{ user_id := some "u1", online_at := some "t" }]

def c9State : PresenceHookState :=
  { presenceState := [], onlineUsers := [],
    collaborationIndicators :=
      [{ type := .cursor, user_id := some "u1", element := some "panel" },
       { type := .focus, user_id := some "u2" }] }

/-- C9 witness: the departing user's cursor indicator is gone after
the leave event. -/
theorem c9_leave_prunes_indicators_witness :
    ({ type := .cursor, user_id := some "u1", element := some "panel" } : CollaborationIndicator)
      ∉ (handlePresenceLeave c9Left c9State).collaborationIndicators :=
  fun hmem =>
    c9_leave_prunes_indicators c9State c9Left "u1"
      ⟨{ user_id := some "u1", online_at := some "t" }, by decide, rfl⟩
      _ hmem rfl
